import Mathlib

set_option maxHeartbeats 1000000

/- Shallow embedding of libaether (src/lib.rs): the .PKGINFO and .BUILDINFO
   metadata parsers, the package model (Pkg), and the registry (PkgList)
   with its install / remove / executable-conflict operations.
   File contents are modelled after UTF-8 decoding (a decoding failure is
   not reachable in this model); machine i32 values are modelled as Int
   with an explicit range check in the string-to-integer conversion. -/

/-- Result of a Rust function call: success, a structured error, or a panic
(for example an unwrap applied to None). -/
inductive RustResult (ε α : Type) where
  | ok (a : α)
  | err (e : ε)
  | panicked
deriving Repr, DecidableEq

/-- True exactly on the ok constructor. -/
def RustResult.isOk : RustResult ε α → Bool
  | .ok _ => true
  | _ => false

/-- The AetherError enum (the variants reachable in this model). -/
inductive AetherError where
  | AlreadyExists (msg : String)
  | CopyError (src dst : String)
  | InfoKeyError (kind key : String)
  | InfoParseError (field line : String)
  | InvalidPkg (path note : String)
  | InvalidValue (key value : String)
  | LinkError (src dst : String)
  | MissingExec (paths : List String)
  | MissingFile (paths : List String)
  | MissingPkg (name ver : String)
  | ReadError (file : String)
  | Unknown
  | WriteError (file : String)
deriving Repr, DecidableEq

/-- Digits to a natural number, most significant first. -/
def digitsToNat (ds : List Char) : Nat :=
  ds.foldl (fun acc c => acc * 10 + (c.toNat - 48)) 0

/-- Rust str::parse::<i32>: optional sign, at least one ASCII digit,
result must fit in a 32-bit signed integer. -/
def parseI32 (s : String) : Option Int :=
  let cs := s.toList
  let signAndDigits : Int × List Char :=
    match cs with
    | '+' :: rest => (1, rest)
    | '-' :: rest => (-1, rest)
    | _ => (1, cs)
  let sign := signAndDigits.1
  let ds := signAndDigits.2
  if ds.isEmpty then none
  else if ds.all Char.isDigit then
    let v : Int := sign * (digitsToNat ds : Int)
    if -2147483648 ≤ v ∧ v ≤ 2147483647 then some v else none
  else none

/-- Split a character list at each leftmost, non-overlapping occurrence of
the three-character delimiter of the metadata format, like
Rust str::split(" = "). The accumulator holds the current piece reversed. -/
def splitEq : List Char → List Char → List String
  | ' ' :: '=' :: ' ' :: rest, acc => String.mk acc.reverse :: splitEq rest []
  | c :: rest, acc => splitEq rest (c :: acc)
  | [], acc => [String.mk acc.reverse]

/-- Split a character list at each newline, like the first stage of
Rust str::lines. -/
def splitNl : List Char → List Char → List (List Char)
  | '\n' :: rest, acc => acc.reverse :: splitNl rest []
  | c :: rest, acc => splitNl rest (c :: acc)
  | [], acc => [acc.reverse]

/-- Drop one trailing carriage return, like Rust str::lines does per line. -/
def stripCr (l : List Char) : List Char :=
  match l.getLast? with
  | some '\r' => l.dropLast
  | _ => l

/-- Assemble the pieces produced by splitNl into lines: every piece except
the final one was terminated by a newline, so a carriage return directly
before that newline is stripped; the final piece was not terminated, keeps
its characters unchanged (a lone trailing carriage return stays, as in
Rust), and is dropped when empty (the final line ending is optional). -/
def stripCrLines : List (List Char) → List String
  | [] => []
  | [last] => if last = [] then [] else [String.mk last]
  | l :: rest => String.mk (stripCr l) :: stripCrLines rest

/-- Rust str::lines: split at newlines, strip the carriage return of each
CRLF ending, drop the optional final empty piece. -/
def rustLines (s : String) : List String :=
  stripCrLines (splitNl s.toList [])

/-- Whether the first character of the string is c, like
Rust str::starts_with with a one-character pattern. -/
def startsWithChar (s : String) (c : Char) : Bool :=
  match s.toList with
  | [] => false
  | d :: _ => d = c

/-- line.split(" = ").next().unwrap(): split always yields a first piece. -/
def lineKey (line : String) : String :=
  (splitEq line.toList []).headD ""

/-- line.split(" = ").nth(1): the piece after the first delimiter, if any. -/
def lineValue (line : String) : Option String :=
  (splitEq line.toList [])[1]?

/-- Data parsed from a .PKGINFO file. -/
structure PkgInfo where
  pkgname : String
  pkgbase : String
  pkgver : String
  pkgdesc : String
  url : String
  builddate : Int
  packager : String
  size : Int
  arch : List String
  license : String
  conflict : List String
  provides : List String
  depend : List String
  optdepend : List String
  makedepend : List String
  checkdepend : List String
  backup : List String
  group : List String
deriving Repr, DecidableEq

/-- PkgInfo::new, the all-default record. -/
def PkgInfo.new : PkgInfo where
  pkgname := ""
  pkgbase := ""
  pkgver := ""
  pkgdesc := ""
  url := ""
  builddate := 0
  packager := ""
  size := 0
  arch := []
  license := ""
  conflict := []
  provides := []
  depend := []
  optdepend := []
  makedepend := []
  checkdepend := []
  backup := []
  group := []

/-- One loop iteration of PkgInfo::parse: a # line is skipped; the key is the
piece before the first delimiter; a missing value is unwrapped (panic); the
key is matched against the recognized set; the numeric fields unwrap their
str::parse result (panic on a bad value); an unknown key is an InfoKeyError. -/
def PkgInfo.step (info : PkgInfo) (line : String) : RustResult AetherError PkgInfo :=
  if startsWithChar line '#' then .ok info
  else
    let key := lineKey line
    match lineValue line with
    | none => .panicked
    | some value =>
      if key = "pkgname" then .ok { info with pkgname := value }
      else if key = "pkgbase" then .ok { info with pkgbase := value }
      else if key = "pkgver" then .ok { info with pkgver := value }
      else if key = "pkgdesc" then .ok { info with pkgdesc := value }
      else if key = "url" then .ok { info with url := value }
      else if key = "builddate" then
        match parseI32 value with
        | some n => .ok { info with builddate := n }
        | none => .panicked
      else if key = "packager" then .ok { info with packager := value }
      else if key = "size" then
        match parseI32 value with
        | some n => .ok { info with size := n }
        | none => .panicked
      else if key = "arch" then .ok { info with arch := info.arch ++ [value] }
      else if key = "license" then .ok { info with license := value }
      else if key = "conflict" then .ok { info with conflict := info.conflict ++ [value] }
      else if key = "provides" then .ok { info with provides := info.provides ++ [value] }
      else if key = "depend" then .ok { info with depend := info.depend ++ [value] }
      else if key = "optdepend" then .ok { info with optdepend := info.optdepend ++ [value] }
      else if key = "makedepend" then .ok { info with makedepend := info.makedepend ++ [value] }
      else if key = "checkdepend" then .ok { info with checkdepend := info.checkdepend ++ [value] }
      else if key = "backup" then .ok { info with backup := info.backup ++ [value] }
      else if key = "group" then .ok { info with group := info.group ++ [value] }
      else .err (.InfoKeyError "PkgInfo" key)

/-- The loop of PkgInfo::parse over the lines of the file. -/
def PkgInfo.parseLines : List String → PkgInfo → RustResult AetherError PkgInfo
  | [], info => .ok info
  | l :: ls, info =>
    match PkgInfo.step info l with
    | .ok info2 => PkgInfo.parseLines ls info2
    | .err e => .err e
    | .panicked => .panicked

/-- PkgInfo::parse on decoded file contents. -/
def PkgInfo.parse (contents : String) : RustResult AetherError PkgInfo :=
  PkgInfo.parseLines (rustLines contents) PkgInfo.new

/-- Data parsed from a .BUILDINFO file. -/
structure BuildInfo where
  format : Int
  pkgname : String
  pkgbase : String
  pkgver : String
  pkgarch : List String
  pkgbuild_sha256sum : String
  pkgbuild_md5sum : String
  pkgbuild_sha1sum : String
  packager : String
  builddate : Int
  builddir : String
  startdir : String
  buildtool : String
  buildtoolver : String
  buildenv : List String
  options : List String
  installed : List String
deriving Repr, DecidableEq

/-- BuildInfo::new, the all-default record. -/
def BuildInfo.new : BuildInfo where
  format := 0
  pkgname := ""
  pkgbase := ""
  pkgver := ""
  pkgarch := []
  pkgbuild_sha256sum := ""
  pkgbuild_md5sum := ""
  pkgbuild_sha1sum := ""
  packager := ""
  builddate := 0
  builddir := ""
  startdir := ""
  buildtool := ""
  buildtoolver := ""
  buildenv := []
  options := []
  installed := []

/-- One loop iteration of BuildInfo::parse: no comment convention; a missing
value is an InfoParseError naming the line; the numeric fields map a failed
str::parse to InvalidValue; an unknown key is an InfoKeyError. -/
def BuildInfo.step (info : BuildInfo) (line : String) : RustResult AetherError BuildInfo :=
  let key := lineKey line
  match lineValue line with
  | none => .err (.InfoParseError "value" line)
  | some value =>
    if key = "format" then
      match parseI32 value with
      | some n => .ok { info with format := n }
      | none => .err (.InvalidValue key value)
    else if key = "pkgname" then .ok { info with pkgname := value }
    else if key = "pkgbase" then .ok { info with pkgbase := value }
    else if key = "pkgver" then .ok { info with pkgver := value }
    else if key = "pkgarch" then .ok { info with pkgarch := info.pkgarch ++ [value] }
    else if key = "pkgbuild_sha256sum" then .ok { info with pkgbuild_sha256sum := value }
    else if key = "pkgbuild_md5sum" then .ok { info with pkgbuild_md5sum := value }
    else if key = "pkgbuild_sha1sum" then .ok { info with pkgbuild_sha1sum := value }
    else if key = "packager" then .ok { info with packager := value }
    else if key = "builddate" then
      match parseI32 value with
      | some n => .ok { info with builddate := n }
      | none => .err (.InvalidValue key value)
    else if key = "builddir" then .ok { info with builddir := value }
    else if key = "startdir" then .ok { info with startdir := value }
    else if key = "buildtool" then .ok { info with buildtool := value }
    else if key = "buildtoolver" then .ok { info with buildtoolver := value }
    else if key = "buildenv" then .ok { info with buildenv := info.buildenv ++ [value] }
    else if key = "options" then .ok { info with options := info.options ++ [value] }
    else if key = "installed" then .ok { info with installed := info.installed ++ [value] }
    else .err (.InfoKeyError "BuildInfo" key)

/-- The loop of BuildInfo::parse over the lines of the file. -/
def BuildInfo.parseLines : List String → BuildInfo → RustResult AetherError BuildInfo
  | [], info => .ok info
  | l :: ls, info =>
    match BuildInfo.step info l with
    | .ok info2 => BuildInfo.parseLines ls info2
    | .err e => .err e
    | .panicked => .panicked

/-- BuildInfo::parse on decoded file contents. -/
def BuildInfo.parse (contents : String) : RustResult AetherError BuildInfo :=
  BuildInfo.parseLines (rustLines contents) BuildInfo.new

/-- The values the parser associates with key k, in encounter order: the
value piece of every non-comment line whose key piece is k. -/
def valuesOf (k : String) (ls : List String) : List String :=
  ls.filterMap (fun l =>
    if startsWithChar l '#' then none
    else
      match lineValue l with
      | none => none
      | some v => if lineKey l = k then some v else none)

/-- The last element of the list, or the default when the list is empty. -/
def lastD : List String → String → String
  | [], d => d
  | x :: xs, _ => lastD xs x

/-- The last element of the list, or the default when the list is empty. -/
def lastDInt : List Int → Int → Int
  | [], d => d
  | x :: xs, _ => lastDInt xs x

/-- The successfully converted 32-bit values among the values of key k. -/
def i32ValuesOf (k : String) (ls : List String) : List Int :=
  (valuesOf k ls).filterMap parseI32

/-- Statement-side characterization of PkgInfo parsing: every scalar key is
last-write-wins over the accumulator and every multi-valued key appends its
values in encounter order. -/
def PkgInfo.specFold (acc : PkgInfo) (ls : List String) : PkgInfo where
  pkgname := lastD (valuesOf "pkgname" ls) acc.pkgname
  pkgbase := lastD (valuesOf "pkgbase" ls) acc.pkgbase
  pkgver := lastD (valuesOf "pkgver" ls) acc.pkgver
  pkgdesc := lastD (valuesOf "pkgdesc" ls) acc.pkgdesc
  url := lastD (valuesOf "url" ls) acc.url
  builddate := lastDInt (i32ValuesOf "builddate" ls) acc.builddate
  packager := lastD (valuesOf "packager" ls) acc.packager
  size := lastDInt (i32ValuesOf "size" ls) acc.size
  arch := acc.arch ++ valuesOf "arch" ls
  license := lastD (valuesOf "license" ls) acc.license
  conflict := acc.conflict ++ valuesOf "conflict" ls
  provides := acc.provides ++ valuesOf "provides" ls
  depend := acc.depend ++ valuesOf "depend" ls
  optdepend := acc.optdepend ++ valuesOf "optdepend" ls
  makedepend := acc.makedepend ++ valuesOf "makedepend" ls
  checkdepend := acc.checkdepend ++ valuesOf "checkdepend" ls
  backup := acc.backup ++ valuesOf "backup" ls
  group := acc.group ++ valuesOf "group" ls

/-- The recognized keys of the PkgInfo record kind, in match order. -/
def pkgInfoKeys : List String :=
  ["pkgname", "pkgbase", "pkgver", "pkgdesc", "url", "builddate", "packager",
   "size", "arch", "license", "conflict", "provides", "depend", "optdepend",
   "makedepend", "checkdepend", "backup", "group"]

/-- The recognized keys of the BuildInfo record kind, in match order. -/
def buildInfoKeys : List String :=
  ["format", "pkgname", "pkgbase", "pkgver", "pkgarch", "pkgbuild_sha256sum",
   "pkgbuild_md5sum", "pkgbuild_sha1sum", "packager", "builddate", "builddir",
   "startdir", "buildtool", "buildtoolver", "buildenv", "options", "installed"]

/-- Whether some line of the input carries a key outside the recognized
BuildInfo key set. -/
def hasUnrecognizedBuildKey (s : String) : Bool :=
  (rustLines s).any (fun l => !(buildInfoKeys.contains (lineKey l)))

/- ------------------------------------------------------------------
   Filesystem model: a deterministic snapshot of the directories, regular
   files and symlinks the library touches. A directory read either finds an
   entry-name list, finds nothing, or fails with a non-NotFound I/O error.
   File contents are stored after UTF-8 decoding. Reads are deterministic:
   reading the same path twice yields the same outcome, which is the
   property the validation / construction pair relies on.
   ------------------------------------------------------------------ -/

/-- Outcome of std::fs::read_dir on a path. -/
inductive DirRes where
  | found (entries : List String)
  | notFound
  | ioError
deriving Repr, DecidableEq

/-- Snapshot of the filesystem. -/
structure FS where
  dirs : List (String × DirRes)
  files : List (String × String)
  links : List (String × String)
deriving Repr, DecidableEq

/-- std::fs::read_dir: an unlisted path does not exist. -/
def FS.readDir (fs : FS) (p : String) : DirRes :=
  match fs.dirs.lookup p with
  | some r => r
  | none => .notFound

/-- std::fs::read of a regular file, after UTF-8 decoding. -/
def FS.readFile (fs : FS) (p : String) : Option String :=
  fs.files.lookup p

/-- Path::exists / std::fs::metadata success: a readable directory, a
regular file, or a symlink. -/
def FS.pathExists (fs : FS) (p : String) : Bool :=
  (match fs.dirs.lookup p with
   | some (.found _) => true
   | _ => false)
  || (fs.files.lookup p).isSome || (fs.links.lookup p).isSome

/-- std::fs::remove_file: unlinks a regular file or a symlink; none when
the path holds neither. -/
def FS.removeFile (fs : FS) (p : String) : Option FS :=
  if (fs.files.lookup p).isSome || (fs.links.lookup p).isSome then
    some { fs with
      files := fs.files.filter (fun e => e.1 != p),
      links := fs.links.filter (fun e => e.1 != p) }
  else none

/-- Structural prefix test on characters. -/
def listIsPref : List Char → List Char → Bool
  | [], _ => true
  | _ :: _, [] => false
  | a :: as, b :: bs => a = b && listIsPref as bs

/-- Whether s starts with the prefix pre. -/
def strStartsWith (s pre : String) : Bool :=
  listIsPref pre.toList s.toList

/-- Path::join: an absolute right-hand side replaces the base. -/
def pathJoin (a b : String) : String :=
  if strStartsWith b "/" then b else a ++ "/" ++ b

/-- The binary directory (dirs::executable_dir), a fixed location in the
model environment. -/
def bin_dir : String := "/home/user/.local/bin"

/-- The package-store directory (dirs::state_dir joined with aether/pkg). -/
def pkg_dir : String := "/home/user/.local/state/aether/pkg"

/-- Wrapper for the data read from a .MTREE file: the decompressed byte
stream, kept opaque. -/
structure MTree where
  raw : String
deriving Repr, DecidableEq

/-- Modelled from the spec: the external decompression filter (gunzip
subprocess). The source pipes the file bytes through the process and keeps
its stdout without inspecting the exit status, so for this model only a
deterministic byte-stream transformation is observable. -/
def gunzipFilter (raw : String) : String :=
  raw

/-- MTree::parse: read the file, pipe it through the decompression filter,
keep the output. The subprocess machinery itself is modelled as always
available; a read failure is a ReadError. -/
def MTree.parse (fs : FS) (file : String) : RustResult AetherError MTree :=
  match fs.readFile file with
  | none => .err (.ReadError file)
  | some raw => .ok ⟨gunzipFilter raw⟩

/-- PkgInfo::parse reading its input from a file. -/
def PkgInfo.parseFile (fs : FS) (file : String) : RustResult AetherError PkgInfo :=
  match fs.readFile file with
  | none => .err (.ReadError file)
  | some contents => PkgInfo.parse contents

/-- BuildInfo::parse reading its input from a file. -/
def BuildInfo.parseFile (fs : FS) (file : String) : RustResult AetherError BuildInfo :=
  match fs.readFile file with
  | none => .err (.ReadError file)
  | some contents => BuildInfo.parse contents

/-- All information related to a single package. -/
structure Pkg where
  files : List String
  buildinfo : Option BuildInfo
  mtree : MTree
  pkginfo : PkgInfo
  path : String
deriving Repr, DecidableEq

/-- Whether a directory read fails with a non-NotFound error. -/
def dirIsIoError : DirRes → Bool
  | .ioError => true
  | _ => false

/-- Whether the recursive walk of ScanDir::all().walk hits a read failure:
the root itself, or any directory below it, reads with a non-NotFound
error. ScanDir collects such errors and walk returns them as Err. -/
def walkHasError (fs : FS) (path : String) : Bool :=
  dirIsIoError (fs.readDir path) ||
  fs.dirs.any (fun e => strStartsWith e.1 (path ++ "/") && dirIsIoError e.2)

/-- The entry collection of ScanDir::all().walk on its success path: every
path strictly below the directory, in snapshot order. -/
def fsWalk (fs : FS) (path : String) : List String :=
  (fs.dirs.map Prod.fst ++ fs.files.map Prod.fst ++ fs.links.map Prod.fst).filter
    (fun p => strStartsWith p (path ++ "/"))

/-- Pkg::is_valid_dir: the directory is readable and non-empty, the two
required files exist, the manifest decompresses, the metadata parses. -/
def Pkg.is_valid_dir (fs : FS) (path : String) : RustResult AetherError Unit :=
  match fs.readDir path with
  | .notFound => .err (.ReadError path)
  | .ioError => .err (.ReadError path)
  | .found entries =>
    if entries.length = 0 then .err (.InvalidPkg path "no data")
    else if !(fs.pathExists (pathJoin path ".MTREE")) then
      .err (.InvalidPkg path "missing .MTREE file")
    else if !(fs.pathExists (pathJoin path ".PKGINFO")) then
      .err (.InvalidPkg path "missing .PKGINFO file")
    else
      match MTree.parse fs (pathJoin path ".MTREE") with
      | .err _ => .err (.InvalidPkg path "invalid .MTREE file")
      | .panicked => .panicked
      | .ok _ =>
        match PkgInfo.parseFile fs (pathJoin path ".PKGINFO") with
        | .err _ => .err (.InvalidPkg path "invalid .PKGINFO file")
        | .panicked => .panicked
        | .ok _ => .ok ()

/-- Pkg::from_dir: validate, walk the tree — the walk result is unwrapped,
so a read failure during the walk panics — then parse the build record
when it parses (absence or failure tolerated via .ok()), the manifest and
the metadata. BuildInfo::parse never panics, so the final arm of its match
is unreachable. -/
def Pkg.from_dir (fs : FS) (path : String) : RustResult AetherError Pkg :=
  match Pkg.is_valid_dir fs path with
  | .err e => .err e
  | .panicked => .panicked
  | .ok _ =>
    if walkHasError fs path then .panicked
    else
    let files := fsWalk fs path
    let buildinfo :=
      match BuildInfo.parseFile fs (pathJoin path ".BUILDINFO") with
      | .ok b => some b
      | .err _ => none
      | .panicked => none
    match MTree.parse fs (pathJoin path ".MTREE") with
    | .err e => .err e
    | .panicked => .panicked
    | .ok mtree =>
      match PkgInfo.parseFile fs (pathJoin path ".PKGINFO") with
      | .err e => .err e
      | .panicked => .panicked
      | .ok pkginfo => .ok ⟨files, buildinfo, mtree, pkginfo, path⟩

/-- Pkg::get_refstr: the name-version identity key. -/
def Pkg.get_refstr (p : Pkg) : String :=
  p.pkginfo.pkgname ++ "-" ++ p.pkginfo.pkgver

/-- Directory entries of one of the two executable locations, as
(directory, name) pairs; a missing directory contributes no entries, any
other read failure is a ReadError. -/
def dirEntries (fs : FS) (d : String) : RustResult AetherError (List (String × String)) :=
  match fs.readDir d with
  | .found es => .ok (es.map (fun n => (d, n)))
  | .notFound => .ok []
  | .ioError => .err (.ReadError d)

/-- Pkg::list_execs: entries of path/usr/bin then of path/bin. -/
def Pkg.list_execs (fs : FS) (p : Pkg) : RustResult AetherError (List (String × String)) :=
  match dirEntries fs (pathJoin p.path "usr/bin") with
  | .err e => .err e
  | .panicked => .panicked
  | .ok es1 =>
    match dirEntries fs (pathJoin p.path "bin") with
    | .err e => .err e
    | .panicked => .panicked
    | .ok es2 => .ok (es1 ++ es2)

/-- Pkg::check_execs: for every discovered executable, the matching
bin_dir path must exist; the absent ones are reported together. -/
def Pkg.check_execs (fs : FS) (p : Pkg) : RustResult AetherError (List String) :=
  match p.list_execs fs with
  | .err e => .err e
  | .panicked => .panicked
  | .ok execs =>
    let paths := execs.map (fun e => pathJoin bin_dir e.2)
    let missing := paths.filter (fun q => !(fs.pathExists q))
    if missing.isEmpty then .ok (paths.filter (fun q => fs.pathExists q))
    else .err (.MissingExec missing)

/-- The symlink loop of Pkg::symlink_execs: symlink(entry path, bin_dir
joined with the entry name); an existing target is a LinkError, and the
links made before a failure stay made. -/
def symlinkList : FS → List (String × String) → List String →
    (RustResult AetherError (List String)) × FS
  | fs, [], acc => (.ok acc, fs)
  | fs, e :: rest, acc =>
    let src := pathJoin e.1 e.2
    let dst := pathJoin bin_dir e.2
    if fs.pathExists dst then (.err (.LinkError src dst), fs)
    else symlinkList { fs with links := fs.links ++ [(dst, src)] } rest (acc ++ [dst])

/-- Pkg::symlink_execs. -/
def Pkg.symlink_execs (fs : FS) (p : Pkg) : (RustResult AetherError (List String)) × FS :=
  match p.list_execs fs with
  | .err e => (.err e, fs)
  | .panicked => (.panicked, fs)
  | .ok execs => symlinkList fs execs []

/-- The unlink loop of Pkg::unlink_execs: remove_file(bin_dir joined with
the entry name); a missing target is a WriteError, and the removals made
before a failure stay made. -/
def unlinkList : FS → List (String × String) → List String →
    (RustResult AetherError (List String)) × FS
  | fs, [], acc => (.ok acc, fs)
  | fs, e :: rest, acc =>
    let dst := pathJoin bin_dir e.2
    match fs.removeFile dst with
    | some fs2 => unlinkList fs2 rest (acc ++ [dst])
    | none => (.err (.WriteError dst), fs)

/-- Pkg::unlink_execs. -/
def Pkg.unlink_execs (fs : FS) (p : Pkg) : (RustResult AetherError (List String)) × FS :=
  match p.list_execs fs with
  | .err e => (.err e, fs)
  | .panicked => (.panicked, fs)
  | .ok execs => unlinkList fs execs []

/-- Split a character list at each slash. -/
def splitSlash : List Char → List Char → List String
  | '/' :: rest, acc => String.mk acc.reverse :: splitSlash rest []
  | c :: rest, acc => splitSlash rest (c :: acc)
  | [], acc => [String.mk acc.reverse]

/-- Path::file_name: the last normal path component, none for an empty
path or a parent-directory ending. -/
def fileName (p : String) : Option String :=
  let comps := (splitSlash p.toList []).filter (fun c => c != "")
  match comps.getLast? with
  | none => none
  | some c => if c = ".." then none else some c

/-- The loop of Pkg::check_files: each recorded file must exist, flattened
under pkg_dir by its file name; a name-less path is AetherError.Unknown. -/
def checkFilesGo (fs : FS) : List String → List String → List String →
    RustResult AetherError (List String)
  | [], checked, missing =>
    if missing.isEmpty then .ok checked else .err (.MissingFile missing)
  | f :: rest, checked, missing =>
    match fileName f with
    | none => .err .Unknown
    | some name =>
      let path := pathJoin pkg_dir name
      if fs.pathExists path then checkFilesGo fs rest (checked ++ [path]) missing
      else checkFilesGo fs rest checked (missing ++ [path])

/-- Pkg::check_files. -/
def Pkg.check_files (fs : FS) (p : Pkg) : RustResult AetherError (List String) :=
  checkFilesGo fs p.files [] []

/-- The loop of Pkg::remove_files: the file name must exist, then the
recorded path is joined under pkg_dir (an absolute recorded path replaces
the base, per Path::join) and removed; a failed removal is a WriteError
and the removals made before it stay made. -/
def removeFilesGo : FS → List String → List String →
    (RustResult AetherError (List String)) × FS
  | fs, [], acc => (.ok acc, fs)
  | fs, f :: rest, acc =>
    match fileName f with
    | none => (.err .Unknown, fs)
    | some _ =>
      let path := pathJoin pkg_dir f
      match fs.removeFile path with
      | some fs2 => removeFilesGo fs2 rest (acc ++ [path])
      | none => (.err (.WriteError path), fs)

/-- Pkg::remove_files. -/
def Pkg.remove_files (fs : FS) (p : Pkg) : (RustResult AetherError (List String)) × FS :=
  removeFilesGo fs p.files []

/-- The registry: the ordered collection of installed packages. -/
structure PkgList where
  pkgs : List Pkg
deriving Repr, DecidableEq

/-- Number of occurrences of n in the list. -/
def occCount (n : String) : List String → Nat
  | [] => 0
  | m :: ms => (if m = n then 1 else 0) + occCount n ms

/-- The duplicate scan of PkgList::exec_conflicts: a name already checked
is a conflict, otherwise it becomes checked; every occurrence after the
first of a name is reported, in encounter order. -/
def dupScan (checked : List String) : List String → List String
  | [] => []
  | n :: ns => if n ∈ checked then n :: dupScan checked ns else dupScan (checked ++ [n]) ns

/-- The executable names of all packages in order; the first listing error
aborts, exactly as the interleaved source loop does. -/
def gatherExecNames (fs : FS) : List Pkg → RustResult AetherError (List String)
  | [] => .ok []
  | p :: ps =>
    match p.list_execs fs with
    | .err e => .err e
    | .panicked => .panicked
    | .ok es =>
      match gatherExecNames fs ps with
      | .err e => .err e
      | .panicked => .panicked
      | .ok rest => .ok (es.map (fun e => e.2) ++ rest)

/-- PkgList::exec_conflicts: the source interleaves gathering and checking
per package, but the checked/conflict state depends only on the flattened
name sequence and the first error aborts in the same position, so
gathering first is observably identical. -/
def PkgList.exec_conflicts (fs : FS) (l : PkgList) :
    RustResult AetherError (Option (List String)) :=
  match gatherExecNames fs l.pkgs with
  | .err e => .err e
  | .panicked => .panicked
  | .ok names =>
    let conflicts := dupScan [] names
    if conflicts.isEmpty then .ok none else .ok (some conflicts)

/-- Debug rendering of a list of path names, as in the conflict message. -/
def debugList (xs : List String) : String :=
  "[" ++ String.intercalate ", " (xs.map (fun s => "\"" ++ s ++ "\"")) ++ "]"

/-- Rebase a path from under src to under dst, when it lies under src. -/
def rebase (src dst p : String) : Option String :=
  if strStartsWith p (src ++ "/") then
    some (dst ++ "/" ++ String.mk (p.toList.drop (src.toList.length + 1)))
  else none

/-- The external recursive content-copy primitive (fs_extra dir::copy with
content_only): everything under src is duplicated under dst; a source that
is not a readable directory fails. The returned number models the copied
byte count only as a count of copied files. -/
def dirCopy (fs : FS) (src dst : String) : RustResult AetherError (Nat × FS) :=
  match fs.readDir src with
  | .found _ =>
    let newFiles := fs.files.filterMap (fun e => (rebase src dst e.1).map (fun q => (q, e.2)))
    let newDirs := fs.dirs.filterMap (fun e => (rebase src dst e.1).map (fun q => (q, e.2)))
    let newLinks := fs.links.filterMap (fun e => (rebase src dst e.1).map (fun q => (q, e.2)))
    .ok (newFiles.length,
      { dirs := fs.dirs ++ newDirs, files := fs.files ++ newFiles, links := fs.links ++ newLinks })
  | _ => .err (.CopyError src dst)

/-- PkgList::install_to: reject a duplicate reference string; push the
candidate onto the live package list; reject on executable conflicts
(the pushed candidate stays); otherwise copy the package contents and
symlink its executables. -/
def PkgList.install_to (fs : FS) (l : PkgList) (pkg : Pkg) (path : String) :
    (RustResult AetherError Nat) × PkgList × FS :=
  if l.pkgs.any (fun x => x.get_refstr == pkg.get_refstr) then
    (.err (.AlreadyExists (pkg.get_refstr ++ " already exists in PkgList")), l, fs)
  else
    let l2 : PkgList := ⟨l.pkgs ++ [pkg]⟩
    match l2.exec_conflicts fs with
    | .err e => (.err e, l2, fs)
    | .panicked => (.panicked, l2, fs)
    | .ok (some conflicts) =>
      (.err (.AlreadyExists ("conflicts found in /bin or /usr/bin: " ++ debugList conflicts)),
       l2, fs)
    | .ok none =>
      match dirCopy fs pkg.path path with
      | .err e => (.err e, l2, fs)
      | .panicked => (.panicked, l2, fs)
      | .ok (n, fs2) =>
        match pkg.symlink_execs fs2 with
        | (.ok _, fs3) => (.ok n, l2, fs3)
        | (.err e, fs3) => (.err e, l2, fs3)
        | (.panicked, fs3) => (.panicked, l2, fs3)

/-- PkgList::remove_from: reject an unknown reference string; tolerate
already-missing executables and files, otherwise unlink the executable
symlinks and delete the files; the in-memory package list is returned as
the source leaves it. -/
def PkgList.remove_from (fs : FS) (l : PkgList) (pkg : Pkg) (_path : String) :
    (RustResult AetherError Unit) × PkgList × FS :=
  if !(l.pkgs.any (fun x => x.get_refstr == pkg.get_refstr)) then
    (.err (.MissingPkg pkg.pkginfo.pkgname pkg.pkginfo.pkgver), l, fs)
  else
    let execPhase : (RustResult AetherError Unit) × FS :=
      match pkg.check_execs fs with
      | .ok _ =>
        match pkg.unlink_execs fs with
        | (.ok _, fs2) => (.ok (), fs2)
        | (.err e, fs2) => (.err e, fs2)
        | (.panicked, fs2) => (.panicked, fs2)
      | .err (.MissingExec _) => (.ok (), fs)
      | .err e => (.err e, fs)
      | .panicked => (.panicked, fs)
    match execPhase with
    | (.err e, fs2) => (.err e, l, fs2)
    | (.panicked, fs2) => (.panicked, l, fs2)
    | (.ok _, fs2) =>
      match pkg.check_files fs2 with
      | .ok _ =>
        match pkg.remove_files fs2 with
        | (.ok _, fs3) => (.ok (), l, fs3)
        | (.err e, fs3) => (.err e, l, fs3)
        | (.panicked, fs3) => (.panicked, l, fs3)
      | .err (.MissingFile _) => (.ok (), l, fs2)
      | .err e => (.err e, l, fs2)
      | .panicked => (.panicked, l, fs2)

/- Concrete fixtures used by witnesses and counterexamples. -/

/-- The empty filesystem snapshot. -/
def fs0 : FS := ⟨[], [], []⟩

/-- An empty manifest wrapper. -/
def mtree0 : MTree := ⟨""⟩

/-- A minimal installed package a-1 rooted at /src/a. -/
def pkgA : Pkg :=
  { files := [], buildinfo := none, mtree := mtree0,
    pkginfo := { PkgInfo.new with pkgname := "a", pkgver := "1" }, path := "/src/a" }

/-- A minimal candidate package b-1 rooted at /src/b. -/
def pkgB : Pkg :=
  { files := [], buildinfo := none, mtree := mtree0,
    pkginfo := { PkgInfo.new with pkgname := "b", pkgver := "1" }, path := "/src/b" }

/-- A snapshot in which both /src/a and /src/b provide an executable
named foo. -/
def fs1 : FS :=
  { dirs := [("/src/a/usr/bin", .found ["foo"]), ("/src/b/usr/bin", .found ["foo"])],
    files := [], links := [] }

/-- A package whose metadata is the all-default record. -/
def pkgEmpty : Pkg :=
  { files := [], buildinfo := none, mtree := mtree0, pkginfo := PkgInfo.new, path := "/src/e" }

/-- The example metadata input of the spec. -/
def exInput : String := "pkgname = foo\npkgver = 1.0-1\narch = x86_64\narch = any"

/-- The record the example input parses to. -/
def exRecord : PkgInfo :=
  { PkgInfo.new with pkgname := "foo", pkgver := "1.0-1", arch := ["x86_64", "any"] }

/-- A snapshot holding a structurally valid package at /pkg whose
subdirectory /pkg/sub is unreadable: validation reads only the root and
the two metadata files, but the construction walk descends into sub. -/
def fsWalkErr : FS :=
  { dirs := [("/pkg", .found [".MTREE", ".PKGINFO", "sub"]), ("/pkg/sub", .ioError)],
    files := [("/pkg/.MTREE", ""), ("/pkg/.PKGINFO", "pkgname = w\npkgver = 1")],
    links := [] }

/- ------------------------------------------------------------------
   Theorems.
   ------------------------------------------------------------------ -/

/-- C3: a duplicate reference string is rejected up front with
AlreadyExists; the package list and the whole filesystem snapshot are
returned unchanged, since the guard fires before any mutation. -/
theorem claim3_duplicate_refstr_rejected (fs : FS) (l : PkgList) (pkg : Pkg) (path : String)
    (h : l.pkgs.any (fun x => x.get_refstr == pkg.get_refstr) = true) :
    PkgList.install_to fs l pkg path =
      (.err (.AlreadyExists (pkg.get_refstr ++ " already exists in PkgList")), l, fs) := by
  simp [PkgList.install_to, h]

/-- Witness for C3 at a concrete registry already holding a-1. -/
theorem claim3_witness :
    PkgList.install_to fs0 ⟨[pkgA]⟩ pkgA "/t" =
      (.err (.AlreadyExists "a-1 already exists in PkgList"), ⟨[pkgA]⟩, fs0) :=
  claim3_duplicate_refstr_rejected fs0 ⟨[pkgA]⟩ pkgA "/t" (by decide)

/-- C4: removing a reference string with no member in the registry fails
with MissingPkg; the package list and the whole filesystem snapshot are
returned unchanged, since the guard fires before any mutation. -/
theorem claim4_missing_remove_rejected (fs : FS) (l : PkgList) (pkg : Pkg) (path : String)
    (h : l.pkgs.any (fun x => x.get_refstr == pkg.get_refstr) = false) :
    PkgList.remove_from fs l pkg path =
      (.err (.MissingPkg pkg.pkginfo.pkgname pkg.pkginfo.pkgver), l, fs) := by
  simp [PkgList.remove_from, h]

/-- Witness for C4 at a concrete registry holding only a-1. -/
theorem claim4_witness :
    PkgList.remove_from fs0 ⟨[pkgA]⟩ pkgB "/t" =
      (.err (.MissingPkg "b" "1"), ⟨[pkgA]⟩, fs0) :=
  claim4_missing_remove_rejected fs0 ⟨[pkgA]⟩ pkgB "/t" (by decide)

/-- C2 (divergence witness): at a registry holding a package whose files
and executables are already absent on disk, remove_from returns ok, yet
the returned package list still contains the removed reference string —
the member is never deleted from the in-memory set. -/
theorem claim2_member_survives_remove :
    PkgList.remove_from fs0 ⟨[pkgA]⟩ pkgA "/t" = (.ok (), ⟨[pkgA]⟩, fs0) ∧
    (PkgList.remove_from fs0 ⟨[pkgA]⟩ pkgA "/t").2.1.pkgs.any
      (fun x => x.get_refstr == pkgA.get_refstr) = true := by
  exact ⟨rfl, by decide⟩

/-- C5 (divergence witness): on the delimiter-less line "pkgname",
PkgInfo::parse unwraps None and panics, while BuildInfo::parse returns the
structured InfoParseError naming the offending line. -/
theorem claim5_pkginfo_panics_on_missing_delimiter :
    PkgInfo.parse "pkgname" = .panicked ∧
    BuildInfo.parse "pkgname" = .err (.InfoParseError "value" "pkgname") :=
  ⟨rfl, rfl⟩

/-- C6 (divergence witness): on a non-numeric builddate value,
PkgInfo::parse unwraps a failed str::parse and panics, while
BuildInfo::parse returns the structured InvalidValue error. -/
theorem claim6_pkginfo_panics_on_bad_number :
    PkgInfo.parse "builddate = x" = .panicked ∧
    PkgInfo.parse "size = 12e" = .panicked ∧
    BuildInfo.parse "builddate = x" = .err (.InvalidValue "builddate" "x") ∧
    BuildInfo.parse "format = 9999999999999" = .err (.InvalidValue "format" "9999999999999") :=
  ⟨rfl, rfl, rfl, rfl⟩

/-- The fold of PkgInfo::parse on the empty line list returns the
accumulator unchanged. -/
theorem PkgInfo.specFold_nil (acc : PkgInfo) : PkgInfo.specFold acc [] = acc := by
  cases acc
  simp [PkgInfo.specFold, valuesOf, i32ValuesOf, lastD, lastDInt]

/-- Full characterization of a successful PkgInfo parse: every scalar field
is the last value written to its key (default: the accumulator) and every
multi-valued field is the accumulator extended by the values of its key in
encounter order. -/
theorem PkgInfo.parseLines_eq_specFold :
    ∀ (ls : List String) (acc r : PkgInfo),
      PkgInfo.parseLines ls acc = .ok r → r = PkgInfo.specFold acc ls := by
  intro ls
  induction ls with
  | nil =>
    intro acc r h
    simp only [PkgInfo.parseLines, RustResult.ok.injEq] at h
    rw [← h, PkgInfo.specFold_nil]
  | cons l ls ih =>
    intro acc r h
    rw [PkgInfo.parseLines] at h
    by_cases hc : startsWithChar l '#' = true
    · rw [show PkgInfo.step acc l = .ok acc from by simp [PkgInfo.step, hc]] at h
      rw [ih acc r h]
      cases acc
      simp [PkgInfo.specFold, valuesOf, i32ValuesOf, List.filterMap_cons, hc]
    · cases hv : lineValue l with
      | none =>
        rw [show PkgInfo.step acc l = .panicked from by simp [PkgInfo.step, hc, hv]] at h
        exact absurd h (by simp)
      | some v =>
        by_cases hk1 : lineKey l = "pkgname"
        · rw [show PkgInfo.step acc l = .ok { acc with pkgname := v } from by
            simp [PkgInfo.step, hc, hv, hk1]] at h
          rw [ih _ r h]
          cases acc
          simp [PkgInfo.specFold, valuesOf, i32ValuesOf, List.filterMap_cons, hc, hv, hk1,
            lastD, lastDInt]
        by_cases hk2 : lineKey l = "pkgbase"
        · rw [show PkgInfo.step acc l = .ok { acc with pkgbase := v } from by
            simp [PkgInfo.step, hc, hv, hk2]] at h
          rw [ih _ r h]
          cases acc
          simp [PkgInfo.specFold, valuesOf, i32ValuesOf, List.filterMap_cons, hc, hv, hk2,
            lastD, lastDInt]
        by_cases hk3 : lineKey l = "pkgver"
        · rw [show PkgInfo.step acc l = .ok { acc with pkgver := v } from by
            simp [PkgInfo.step, hc, hv, hk3]] at h
          rw [ih _ r h]
          cases acc
          simp [PkgInfo.specFold, valuesOf, i32ValuesOf, List.filterMap_cons, hc, hv, hk3,
            lastD, lastDInt]
        by_cases hk4 : lineKey l = "pkgdesc"
        · rw [show PkgInfo.step acc l = .ok { acc with pkgdesc := v } from by
            simp [PkgInfo.step, hc, hv, hk4]] at h
          rw [ih _ r h]
          cases acc
          simp [PkgInfo.specFold, valuesOf, i32ValuesOf, List.filterMap_cons, hc, hv, hk4,
            lastD, lastDInt]
        by_cases hk5 : lineKey l = "url"
        · rw [show PkgInfo.step acc l = .ok { acc with url := v } from by
            simp [PkgInfo.step, hc, hv, hk5]] at h
          rw [ih _ r h]
          cases acc
          simp [PkgInfo.specFold, valuesOf, i32ValuesOf, List.filterMap_cons, hc, hv, hk5,
            lastD, lastDInt]
        by_cases hk6 : lineKey l = "builddate"
        · cases hn : parseI32 v with
          | none =>
            rw [show PkgInfo.step acc l = .panicked from by
              simp [PkgInfo.step, hc, hv, hk6, hn]] at h
            exact absurd h (by simp)
          | some n =>
            rw [show PkgInfo.step acc l = .ok { acc with builddate := n } from by
              simp [PkgInfo.step, hc, hv, hk6, hn]] at h
            rw [ih _ r h]
            cases acc
            simp [PkgInfo.specFold, valuesOf, i32ValuesOf, List.filterMap_cons, hc, hv, hk6, hn,
              lastD, lastDInt]
        by_cases hk7 : lineKey l = "packager"
        · rw [show PkgInfo.step acc l = .ok { acc with packager := v } from by
            simp [PkgInfo.step, hc, hv, hk7]] at h
          rw [ih _ r h]
          cases acc
          simp [PkgInfo.specFold, valuesOf, i32ValuesOf, List.filterMap_cons, hc, hv, hk7,
            lastD, lastDInt]
        by_cases hk8 : lineKey l = "size"
        · cases hn : parseI32 v with
          | none =>
            rw [show PkgInfo.step acc l = .panicked from by
              simp [PkgInfo.step, hc, hv, hk8, hn]] at h
            exact absurd h (by simp)
          | some n =>
            rw [show PkgInfo.step acc l = .ok { acc with size := n } from by
              simp [PkgInfo.step, hc, hv, hk8, hn]] at h
            rw [ih _ r h]
            cases acc
            simp [PkgInfo.specFold, valuesOf, i32ValuesOf, List.filterMap_cons, hc, hv, hk8, hn,
              lastD, lastDInt]
        by_cases hk9 : lineKey l = "arch"
        · rw [show PkgInfo.step acc l = .ok { acc with arch := acc.arch ++ [v] } from by
            simp [PkgInfo.step, hc, hv, hk9]] at h
          rw [ih _ r h]
          cases acc
          simp [PkgInfo.specFold, valuesOf, i32ValuesOf, List.filterMap_cons, hc, hv, hk9,
            lastD, lastDInt]
        by_cases hk10 : lineKey l = "license"
        · rw [show PkgInfo.step acc l = .ok { acc with license := v } from by
            simp [PkgInfo.step, hc, hv, hk10]] at h
          rw [ih _ r h]
          cases acc
          simp [PkgInfo.specFold, valuesOf, i32ValuesOf, List.filterMap_cons, hc, hv, hk10,
            lastD, lastDInt]
        by_cases hk11 : lineKey l = "conflict"
        · rw [show PkgInfo.step acc l = .ok { acc with conflict := acc.conflict ++ [v] } from by
            simp [PkgInfo.step, hc, hv, hk11]] at h
          rw [ih _ r h]
          cases acc
          simp [PkgInfo.specFold, valuesOf, i32ValuesOf, List.filterMap_cons, hc, hv, hk11,
            lastD, lastDInt]
        by_cases hk12 : lineKey l = "provides"
        · rw [show PkgInfo.step acc l = .ok { acc with provides := acc.provides ++ [v] } from by
            simp [PkgInfo.step, hc, hv, hk12]] at h
          rw [ih _ r h]
          cases acc
          simp [PkgInfo.specFold, valuesOf, i32ValuesOf, List.filterMap_cons, hc, hv, hk12,
            lastD, lastDInt]
        by_cases hk13 : lineKey l = "depend"
        · rw [show PkgInfo.step acc l = .ok { acc with depend := acc.depend ++ [v] } from by
            simp [PkgInfo.step, hc, hv, hk13]] at h
          rw [ih _ r h]
          cases acc
          simp [PkgInfo.specFold, valuesOf, i32ValuesOf, List.filterMap_cons, hc, hv, hk13,
            lastD, lastDInt]
        by_cases hk14 : lineKey l = "optdepend"
        · rw [show PkgInfo.step acc l = .ok { acc with optdepend := acc.optdepend ++ [v] } from by
            simp [PkgInfo.step, hc, hv, hk14]] at h
          rw [ih _ r h]
          cases acc
          simp [PkgInfo.specFold, valuesOf, i32ValuesOf, List.filterMap_cons, hc, hv, hk14,
            lastD, lastDInt]
        by_cases hk15 : lineKey l = "makedepend"
        · rw [show PkgInfo.step acc l = .ok { acc with makedepend := acc.makedepend ++ [v] } from by
            simp [PkgInfo.step, hc, hv, hk15]] at h
          rw [ih _ r h]
          cases acc
          simp [PkgInfo.specFold, valuesOf, i32ValuesOf, List.filterMap_cons, hc, hv, hk15,
            lastD, lastDInt]
        by_cases hk16 : lineKey l = "checkdepend"
        · rw [show PkgInfo.step acc l = .ok { acc with checkdepend := acc.checkdepend ++ [v] } from by
            simp [PkgInfo.step, hc, hv, hk16]] at h
          rw [ih _ r h]
          cases acc
          simp [PkgInfo.specFold, valuesOf, i32ValuesOf, List.filterMap_cons, hc, hv, hk16,
            lastD, lastDInt]
        by_cases hk17 : lineKey l = "backup"
        · rw [show PkgInfo.step acc l = .ok { acc with backup := acc.backup ++ [v] } from by
            simp [PkgInfo.step, hc, hv, hk17]] at h
          rw [ih _ r h]
          cases acc
          simp [PkgInfo.specFold, valuesOf, i32ValuesOf, List.filterMap_cons, hc, hv, hk17,
            lastD, lastDInt]
        by_cases hk18 : lineKey l = "group"
        · rw [show PkgInfo.step acc l = .ok { acc with group := acc.group ++ [v] } from by
            simp [PkgInfo.step, hc, hv, hk18]] at h
          rw [ih _ r h]
          cases acc
          simp [PkgInfo.specFold, valuesOf, i32ValuesOf, List.filterMap_cons, hc, hv, hk18,
            lastD, lastDInt]
        rw [show PkgInfo.step acc l = .err (.InfoKeyError "PkgInfo" (lineKey l)) from by
          simp [PkgInfo.step, hc, hv, hk1, hk2, hk3, hk4, hk5, hk6, hk7, hk8, hk9, hk10, hk11, hk12, hk13, hk14, hk15, hk16, hk17, hk18]] at h
        exact absurd h (by simp)

/-- C9: on a successful parse, repeated scalar keys are last-write-wins and
repeated multi-valued keys append in encounter order, for every field of
the record (specFold states exactly that per field). -/
theorem claim9_lww_scalar_append_multi (s : String) (r : PkgInfo)
    (h : PkgInfo.parse s = .ok r) :
    r = PkgInfo.specFold PkgInfo.new (rustLines s) :=
  PkgInfo.parseLines_eq_specFold (rustLines s) PkgInfo.new r h

/-- Witness for C9 at the example input of the spec: name foo, version
1.0-1, architecture list in encounter order. -/
theorem claim9_witness :
    PkgInfo.parse exInput = .ok exRecord ∧
    exRecord = PkgInfo.specFold PkgInfo.new (rustLines exInput) ∧
    exRecord.pkgname = "foo" ∧ exRecord.pkgver = "1.0-1" ∧
    exRecord.arch = ["x86_64", "any"] :=
  ⟨rfl, claim9_lww_scalar_append_multi exInput exRecord rfl, rfl, rfl, rfl⟩

/-- Comment lines are skipped without touching the accumulator. -/
theorem PkgInfo.parseLines_comments (ls : List String) (acc : PkgInfo)
    (h : ∀ l ∈ ls, startsWithChar l '#' = true) :
    PkgInfo.parseLines ls acc = .ok acc := by
  induction ls with
  | nil => rfl
  | cons l ls ih =>
    have hc := h l (by simp)
    rw [PkgInfo.parseLines,
      show PkgInfo.step acc l = .ok acc from by simp [PkgInfo.step, hc]]
    exact ih (fun x hx => h x (by simp [hx]))

/-- C10: empty input (no lines at all) and input whose every line starts
with # both parse to the default record, and a package carrying the
default metadata has reference string "-": nothing rejects an empty
package name. -/
theorem claim10_comment_only_input_defaults (s : String)
    (h : ∀ l ∈ rustLines s, startsWithChar l '#' = true) :
    PkgInfo.parse s = .ok PkgInfo.new ∧
    ∀ p : Pkg, p.pkginfo = PkgInfo.new → p.get_refstr = "-" := by
  refine ⟨PkgInfo.parseLines_comments (rustLines s) PkgInfo.new h, ?_⟩
  intro p hp
  simp [Pkg.get_refstr, hp]
  rfl

/-- Witness for C10 at the empty input, a two-comment input, and a
concrete package with default metadata. -/
theorem claim10_witness :
    PkgInfo.parse "" = .ok PkgInfo.new ∧
    PkgInfo.parse "#c1\n#c2" = .ok PkgInfo.new ∧
    pkgEmpty.get_refstr = "-" :=
  ⟨(claim10_comment_only_input_defaults "" (by decide)).1,
   (claim10_comment_only_input_defaults "#c1\n#c2" (by decide)).1,
   (claim10_comment_only_input_defaults "" (by decide)).2 pkgEmpty rfl⟩

/-- Parsing a concatenation runs the first part and, on success, continues
with the second from the reached accumulator. -/
theorem PkgInfo.parseLines_append_pkginfo (xs ys : List String) (acc : PkgInfo) :
    PkgInfo.parseLines (xs ++ ys) acc =
      match PkgInfo.parseLines xs acc with
      | .ok acc2 => PkgInfo.parseLines ys acc2
      | .err e => .err e
      | .panicked => .panicked := by
  induction xs generalizing acc with
  | nil => simp [PkgInfo.parseLines]
  | cons x xs ih =>
    rw [List.cons_append, PkgInfo.parseLines]
    conv_rhs => rw [PkgInfo.parseLines]
    cases hstep : PkgInfo.step acc x with
    | ok acc2 => exact ih acc2
    | err e => rfl
    | panicked => rfl

/-- Parsing a concatenation runs the first part and, on success, continues
with the second from the reached accumulator. -/
theorem BuildInfo.parseLines_append_buildinfo (xs ys : List String) (acc : BuildInfo) :
    BuildInfo.parseLines (xs ++ ys) acc =
      match BuildInfo.parseLines xs acc with
      | .ok acc2 => BuildInfo.parseLines ys acc2
      | .err e => .err e
      | .panicked => .panicked := by
  induction xs generalizing acc with
  | nil => simp [BuildInfo.parseLines]
  | cons x xs ih =>
    rw [List.cons_append, BuildInfo.parseLines]
    conv_rhs => rw [BuildInfo.parseLines]
    cases hstep : BuildInfo.step acc x with
    | ok acc2 => exact ih acc2
    | err e => rfl
    | panicked => rfl

/-- A non-comment line with a value and an unrecognized key makes the
PkgInfo step fail with InfoKeyError naming the key and the kind. -/
theorem PkgInfo.step_unknown_key_pkginfo (acc : PkgInfo) (l v : String)
    (hc : startsWithChar l '#' = false)
    (hv : lineValue l = some v)
    (hk : lineKey l ∉ pkgInfoKeys) :
    PkgInfo.step acc l = .err (.InfoKeyError "PkgInfo" (lineKey l)) := by
  simp only [pkgInfoKeys, List.mem_cons, List.mem_singleton, not_or] at hk
  obtain ⟨h1, h2, h3, h4, h5, h6, h7, h8, h9, h10, h11, h12, h13, h14, h15, h16, h17, h18⟩ := hk
  simp [PkgInfo.step, hc, hv, h1, h2, h3, h4, h5, h6, h7, h8, h9, h10, h11, h12, h13, h14,
    h15, h16, h17, h18]

/-- A line with a value and an unrecognized key makes the BuildInfo step
fail with InfoKeyError naming the key and the kind. -/
theorem BuildInfo.step_unknown_key_buildinfo (acc : BuildInfo) (l v : String)
    (hv : lineValue l = some v)
    (hk : lineKey l ∉ buildInfoKeys) :
    BuildInfo.step acc l = .err (.InfoKeyError "BuildInfo" (lineKey l)) := by
  simp only [buildInfoKeys, List.mem_cons, List.mem_singleton, not_or] at hk
  obtain ⟨h1, h2, h3, h4, h5, h6, h7, h8, h9, h10, h11, h12, h13, h14, h15, h16, h17⟩ := hk
  simp [BuildInfo.step, hv, h1, h2, h3, h4, h5, h6, h7, h8, h9, h10, h11, h12, h13, h14,
    h15, h16, h17]

/-- C8 counterexample: the input contains the unrecognized key zzz, yet
BuildInfo::parse reports the earlier InvalidValue error of the format
line and no InfoKeyError at all; PkgInfo::parse on the matching input
even panics before reaching the unrecognized key. -/
theorem claim8_counterexample :
    hasUnrecognizedBuildKey "format = x\nzzz = 1" = true ∧
    BuildInfo.parse "format = x\nzzz = 1" = .err (.InvalidValue "format" "x") ∧
    BuildInfo.parse "format = x\nzzz = 1" ≠ .err (.InfoKeyError "BuildInfo" "zzz") ∧
    PkgInfo.parse "builddate = x\nzzz = 1" = .panicked := by
  exact ⟨rfl, rfl, by decide, rfl⟩

/-- C8 amended: when every line before the offending one parses without
error and the offending line holds the delimiter with an unrecognized
key, each parser returns an InfoKeyError naming that key and its record
kind. -/
theorem claim8_unrecognized_key_error
    (preP : List String) (lineP : String) (restP : List String) (accP : PkgInfo)
    (hP : PkgInfo.parseLines preP PkgInfo.new = .ok accP)
    (hcP : startsWithChar lineP '#' = false)
    (vP : String) (hvP : lineValue lineP = some vP)
    (hkP : lineKey lineP ∉ pkgInfoKeys)
    (preB : List String) (lineB : String) (restB : List String) (accB : BuildInfo)
    (hB : BuildInfo.parseLines preB BuildInfo.new = .ok accB)
    (vB : String) (hvB : lineValue lineB = some vB)
    (hkB : lineKey lineB ∉ buildInfoKeys) :
    PkgInfo.parseLines (preP ++ lineP :: restP) PkgInfo.new =
      .err (.InfoKeyError "PkgInfo" (lineKey lineP)) ∧
    BuildInfo.parseLines (preB ++ lineB :: restB) BuildInfo.new =
      .err (.InfoKeyError "BuildInfo" (lineKey lineB)) := by
  constructor
  · simp only [PkgInfo.parseLines_append_pkginfo, hP]
    rw [PkgInfo.parseLines, PkgInfo.step_unknown_key_pkginfo accP lineP vP hcP hvP hkP]
  · simp only [BuildInfo.parseLines_append_buildinfo, hB]
    rw [BuildInfo.parseLines, BuildInfo.step_unknown_key_buildinfo accB lineB vB hvB hkB]

/-- Witness for the amended C8 at concrete inputs whose only flaw is the
unrecognized key zzz. -/
theorem claim8_witness :
    PkgInfo.parseLines (["pkgname = foo"] ++ "zzz = 1" :: []) PkgInfo.new =
      .err (.InfoKeyError "PkgInfo" "zzz") ∧
    BuildInfo.parseLines (["format = 2"] ++ "zzz = 1" :: []) BuildInfo.new =
      .err (.InfoKeyError "BuildInfo" "zzz") := by
  exact claim8_unrecognized_key_error ["pkgname = foo"] "zzz = 1" []
    { PkgInfo.new with pkgname := "foo" } rfl rfl "1" rfl (by decide)
    ["format = 2"] "zzz = 1" [] { BuildInfo.new with format := 2 }
    rfl "1" rfl (by decide)

/-- occCount is positive exactly on members. -/
theorem occCount_pos (n : String) (ns : List String) :
    0 < occCount n ns ↔ n ∈ ns := by
  induction ns with
  | nil => simp [occCount]
  | cons m ms ih =>
    by_cases hm : m = n
    · subst hm; simp [occCount]
    · simp [occCount, hm, ih, Ne.symm hm]

/-- Membership in the conflict scan: starting from a checked set, a name is
reported when it is already checked and occurs, or occurs at least twice. -/
theorem mem_dupScan (n : String) (ns : List String) : ∀ (checked : List String),
    (n ∈ dupScan checked ns ↔ (n ∈ checked ∧ n ∈ ns) ∨ 2 ≤ occCount n ns) := by
  induction ns with
  | nil => intro checked; simp [dupScan, occCount]
  | cons m ms ih =>
    intro checked
    by_cases hm : m ∈ checked
    · rw [dupScan, if_pos hm]
      by_cases hnm : n = m
      · subst hnm
        simp [List.mem_cons, ih checked, hm, occCount]
      · simp [List.mem_cons, hnm, Ne.symm hnm, ih checked, occCount]
    · rw [dupScan, if_neg hm, ih (checked ++ [m])]
      by_cases hnm : n = m
      · subst hnm
        have hin : n ∈ checked ++ [n] := by simp
        have hocc : occCount n (n :: ms) = 1 + occCount n ms := by simp [occCount]
        rw [hocc]
        constructor
        · rintro (⟨_, hms⟩ | h2)
          · exact Or.inr (by have := (occCount_pos n ms).2 hms; omega)
          · exact Or.inr (by omega)
        · rintro (⟨hc, _⟩ | h2)
          · exact absurd hc hm
          · have h1 : 0 < occCount n ms := by omega
            exact Or.inl ⟨hin, (occCount_pos n ms).1 h1⟩
      · simp [List.mem_append, List.mem_cons, hnm, Ne.symm hnm, occCount]

/-- C1 counterexample: installing b-1 (providing foo) into a registry
holding a-1 (also providing foo) is rejected with the conflict error, but
the returned package set is the appended one, not the original: the
conflict check mutated the live set, and the candidate is never popped. -/
theorem claim1_counterexample :
    (PkgList.install_to fs1 ⟨[pkgA]⟩ pkgB "/t").1 =
      .err (.AlreadyExists "conflicts found in /bin or /usr/bin: [\"foo\"]") ∧
    (PkgList.install_to fs1 ⟨[pkgA]⟩ pkgB "/t").2.1 = ⟨[pkgA, pkgB]⟩ ∧
    (⟨[pkgA, pkgB]⟩ : PkgList) ≠ ⟨[pkgA]⟩ := by
  exact ⟨rfl, rfl, by decide⟩

/-- C1 amended: with a fresh reference string and a duplicated executable
base name across the appended set, install_to fails with a conflict error
whose list contains every duplicated name, copies nothing (the snapshot is
returned untouched), but returns the live package set with the candidate
appended and kept. -/
theorem claim1_conflict_rejected_live_push (fs : FS) (l : PkgList) (pkg : Pkg) (path : String)
    (names : List String)
    (hfresh : l.pkgs.any (fun x => x.get_refstr == pkg.get_refstr) = false)
    (hg : gatherExecNames fs (l.pkgs ++ [pkg]) = .ok names)
    (n0 : String) (hdup : 2 ≤ occCount n0 names) :
    PkgList.install_to fs l pkg path =
      (.err (.AlreadyExists
         ("conflicts found in /bin or /usr/bin: " ++ debugList (dupScan [] names))),
       ⟨l.pkgs ++ [pkg]⟩, fs) ∧
    (∀ n, 2 ≤ occCount n names → n ∈ dupScan [] names) := by
  have hmem : ∀ n, 2 ≤ occCount n names → n ∈ dupScan [] names := by
    intro n hn
    exact (mem_dupScan n names []).2 (Or.inr hn)
  have hne : dupScan [] names ≠ [] := List.ne_nil_of_mem (hmem n0 hdup)
  have hempty : (dupScan [] names).isEmpty = false := by
    cases h : dupScan [] names with
    | nil => exact absurd h hne
    | cons a as => rfl
  refine ⟨?_, hmem⟩
  have hconf : PkgList.exec_conflicts fs ⟨l.pkgs ++ [pkg]⟩ = .ok (some (dupScan [] names)) := by
    rw [PkgList.exec_conflicts]
    simp only [hg]
    simp [hempty]
  simp only [PkgList.install_to, hfresh, Bool.false_eq_true, if_false, hconf]

/-- Witness for the amended C1 at the concrete two-package conflict. -/
theorem claim1_witness :
    PkgList.install_to fs1 ⟨[pkgA]⟩ pkgB "/t" =
      (.err (.AlreadyExists
         ("conflicts found in /bin or /usr/bin: " ++ debugList (dupScan [] ["foo", "foo"]))),
       ⟨[pkgA, pkgB]⟩, fs1) ∧
    (∀ n, 2 ≤ occCount n ["foo", "foo"] → n ∈ dupScan [] ["foo", "foo"]) :=
  claim1_conflict_rejected_live_push fs1 ⟨[pkgA]⟩ pkgB "/t" ["foo", "foo"]
    (by decide) (by decide) "foo" (by decide)

/-- C7 (divergence witness): on a snapshot whose package directory is
valid but holds an unreadable subdirectory, standalone validation
succeeds while construction panics unwrapping the tree-walk result, so
the claimed equivalence fails in the validation-succeeds direction. -/
theorem claim7_walk_panic_divergence :
    Pkg.is_valid_dir fsWalkErr "/pkg" = .ok () ∧
    Pkg.from_dir fsWalkErr "/pkg" = .panicked ∧
    (Pkg.from_dir fsWalkErr "/pkg").isOk ≠ (Pkg.is_valid_dir fsWalkErr "/pkg").isOk := by
  exact ⟨rfl, rfl, by decide⟩

/-- Away from the walk panic the two directions do agree: when no
directory at or below the candidate fails to read, from_dir succeeds
exactly when is_valid_dir does, because construction runs validation
first and the re-reads and re-parses of a deterministic snapshot
reproduce the validated results. -/
theorem from_dir_isOk_iff_of_walk_ok (fs : FS) (path : String)
    (hw : walkHasError fs path = false) :
    (Pkg.from_dir fs path).isOk = (Pkg.is_valid_dir fs path).isOk := by
  rw [Pkg.from_dir]
  cases h : Pkg.is_valid_dir fs path with
  | err e => rfl
  | panicked => rfl
  | ok u =>
    simp only [hw, Bool.false_eq_true, if_false]
    rw [Pkg.is_valid_dir] at h
    cases hd : fs.readDir path <;> simp only [hd] at h
    case notFound => exact absurd h (by simp)
    case ioError => exact absurd h (by simp)
    case found entries =>
      by_cases hlen : entries.length = 0
      · rw [if_pos hlen] at h; exact absurd h (by simp)
      · rw [if_neg hlen] at h
        cases hm : fs.pathExists (pathJoin path ".MTREE") <;> simp only [hm] at h
        next => exact absurd h (by simp)
        next =>
          simp only [Bool.not_true, Bool.false_eq_true, if_false] at h
          cases hp : fs.pathExists (pathJoin path ".PKGINFO") <;> simp only [hp] at h
          next => exact absurd h (by simp)
          next =>
            simp only [Bool.not_true, Bool.false_eq_true, if_false] at h
            cases hmt : MTree.parse fs (pathJoin path ".MTREE") <;> simp only [hmt] at h
            case err e2 => exact absurd h (by simp)
            case panicked => exact absurd h (by simp)
            case ok mt =>
              cases hpi : PkgInfo.parseFile fs (pathJoin path ".PKGINFO") <;> simp only [hpi] at h
              case err e2 => exact absurd h (by simp)
              case panicked => exact absurd h (by simp)
              case ok pi2 =>
                simp only [hmt, hpi]
                rfl
